import Mathlib

/-!
# Verification of the n8n Configuration Wizard core

This file gives a shallow embedding, in Lean 4, of the core of the
n8n Configuration Wizard (validation rule engine, diff/revert engine and
multi-format output generator) and proves properties of that embedding.

Modelling conventions:
* A JavaScript `Record<string, string>` (the configuration map) is modelled
  as an association list `List (String × String)` in insertion order; object
  keys are unique, which appears as a `Nodup` hypothesis where it matters.
* `config[field]` is modelled by `getVal`, returning `Option String`
  (`none` plays the role of `undefined`).
* Rendered text output is modelled at line granularity: a generated document
  is the list of its lines (the TypeScript code joins them with `"\n"`);
  each configuration entry contributes one line.  Where the source joins an
  empty list into an empty string inside a template literal, the line model
  keeps the resulting blank line explicitly.
* `new Date().toISOString()` is an external input and is passed in as the
  `now : String` parameter.
* `String.prototype.localeCompare` is modelled as the codepoint order on
  strings (the Lean `LinearOrder String` instance).
-/

namespace N8nWizard

/-- A configuration map: field name to string value, in insertion order. -/
abbrev Config := List (String × String)

/-- Embedding of `record[key]` on a JS record (modelled as an association list): the
value at `key`, or `none` (undefined). -/
def getVal {α : Type} : List (String × α) → String → Option α
  | [], _ => none
  | (k, v) :: rest, key => if k = key then some v else getVal rest key

/-- Embedding of `config[key] ?? ""`: read a key, an absent key reads as the empty string. -/
def getValD (config : Config) (key : String) : String :=
  (getVal config key).getD ""

/-- The list of keys of a configuration map (`Object.keys(config)`). -/
def keysOf (config : Config) : List String :=
  config.map Prod.fst

/-- A category of configuration fields, from `categories` in `n8n-config.ts`,
projected to the two components `getFieldCategory` reads: the category `id`
and the `name`s of its `variables` (field `variableNames` here). -/
structure Category where
  id : String
  variableNames : List String

/-- The static category catalog from `n8n-config.ts` (ids and variable names,
in source order). -/
def categories : List Category := [
  ⟨"deployment",
    ["N8N_HOST", "N8N_PORT", "N8N_PROTOCOL", "N8N_EDITOR_BASE_URL",
     "N8N_PATH", "N8N_LISTEN_ADDRESS", "N8N_SSL_KEY", "N8N_SSL_CERT",
     "N8N_ENCRYPTION_KEY", "N8N_USER_FOLDER", "N8N_DISABLE_UI",
     "N8N_TEMPLATES_ENABLED", "N8N_GRACEFUL_SHUTDOWN_TIMEOUT",
     "N8N_PROXY_HOPS"]⟩,
  ⟨"database",
    ["DB_TYPE", "DB_TABLE_PREFIX", "DB_POSTGRESDB_HOST", "DB_POSTGRESDB_PORT",
     "DB_POSTGRESDB_DATABASE", "DB_POSTGRESDB_USER", "DB_POSTGRESDB_PASSWORD",
     "DB_POSTGRESDB_POOL_SIZE", "DB_POSTGRESDB_SCHEMA",
     "DB_POSTGRESDB_SSL_ENABLED", "DB_SQLITE_POOL_SIZE"]⟩,
  ⟨"executions",
    ["EXECUTIONS_MODE", "EXECUTIONS_TIMEOUT", "EXECUTIONS_TIMEOUT_MAX",
     "EXECUTIONS_DATA_SAVE_ON_ERROR", "EXECUTIONS_DATA_SAVE_ON_SUCCESS",
     "EXECUTIONS_DATA_PRUNE", "EXECUTIONS_DATA_MAX_AGE",
     "EXECUTIONS_DATA_PRUNE_MAX_COUNT", "N8N_CONCURRENCY_PRODUCTION_LIMIT"]⟩,
  ⟨"queue",
    ["QUEUE_BULL_REDIS_HOST", "QUEUE_BULL_REDIS_PORT", "QUEUE_BULL_REDIS_DB",
     "QUEUE_BULL_REDIS_USERNAME", "QUEUE_BULL_REDIS_PASSWORD",
     "QUEUE_BULL_REDIS_TLS", "QUEUE_BULL_PREFIX", "QUEUE_HEALTH_CHECK_ACTIVE",
     "QUEUE_HEALTH_CHECK_PORT", "N8N_MULTI_MAIN_SETUP_ENABLED",
     "OFFLOAD_MANUAL_EXECUTIONS_TO_WORKERS"]⟩,
  ⟨"security",
    ["N8N_SECURE_COOKIE", "N8N_SAMESITE_COOKIE", "N8N_BLOCK_ENV_ACCESS_IN_NODE",
     "N8N_BLOCK_FILE_ACCESS_TO_N8N_FILES", "N8N_RESTRICT_FILE_ACCESS_TO",
     "N8N_MFA_ENABLED", "N8N_USER_MANAGEMENT_JWT_SECRET",
     "N8N_USER_MANAGEMENT_JWT_DURATION_HOURS"]⟩,
  ⟨"logs",
    ["N8N_LOG_LEVEL", "N8N_LOG_OUTPUT", "N8N_LOG_FORMAT",
     "N8N_LOG_FILE_LOCATION", "N8N_LOG_FILE_COUNT_MAX",
     "N8N_LOG_FILE_SIZE_MAX", "DB_LOGGING_ENABLED"]⟩,
  ⟨"smtp",
    ["N8N_EMAIL_MODE", "N8N_SMTP_HOST", "N8N_SMTP_PORT", "N8N_SMTP_USER",
     "N8N_SMTP_PASS", "N8N_SMTP_SENDER", "N8N_SMTP_SSL", "N8N_SMTP_STARTTLS"]⟩,
  ⟨"storage",
    ["N8N_DEFAULT_BINARY_DATA_MODE", "N8N_BINARY_DATA_STORAGE_PATH",
     "N8N_EXTERNAL_STORAGE_S3_HOST", "N8N_EXTERNAL_STORAGE_S3_BUCKET_NAME",
     "N8N_EXTERNAL_STORAGE_S3_BUCKET_REGION",
     "N8N_EXTERNAL_STORAGE_S3_ACCESS_KEY",
     "N8N_EXTERNAL_STORAGE_S3_ACCESS_SECRET"]⟩,
  ⟨"ai",
    ["N8N_AI_ASSISTANT_BASE_URL", "N8N_DIAGNOSTICS_ENABLED"]⟩,
  ⟨"source-control",
    ["N8N_SOURCECONTROL_DEFAULT_SSH_KEY_TYPE"]⟩,
  ⟨"timezone",
    ["GENERIC_TIMEZONE", "N8N_DEFAULT_LOCALE"]⟩,
  ⟨"endpoints",
    ["N8N_PAYLOAD_SIZE_MAX", "N8N_METRICS", "N8N_METRICS_PREFIX",
     "N8N_ENDPOINT_WEBHOOK", "N8N_ENDPOINT_WEBHOOK_TEST", "WEBHOOK_URL",
     "N8N_PUBLIC_API_DISABLED"]⟩,
  ⟨"nodes",
    ["N8N_COMMUNITY_PACKAGES_ENABLED", "N8N_PYTHON_ENABLED",
     "NODE_FUNCTION_ALLOW_BUILTIN", "NODE_FUNCTION_ALLOW_EXTERNAL",
     "NODES_EXCLUDE", "N8N_CUSTOM_EXTENSIONS"]⟩]

/-- Embedding of `getFieldCategory` from the diff service: the id of the first category
whose variable list contains the field, else `"unknown"`. -/
def getFieldCategory (fieldName : String) : String :=
  match categories.find? (fun c => c.variableNames.contains fieldName) with
  | some c => c.id
  | none => "unknown"

-- ============================================================================
-- Diff engine
-- ============================================================================

/-- Embedding of `DiffType` from `types.ts`. -/
inductive DiffType where
  | added
  | modified
  | removed
deriving DecidableEq, Repr

/-- Embedding of `DiffEntry` from `types.ts`. -/
structure DiffEntry where
  field : String
  category : String
  type : DiffType
  currentValue : String
  defaultValue : String
deriving DecidableEq, Repr

/-- Embedding of `DiffResult` from `types.ts` (`hasChanges` is a JS boolean). -/
structure DiffResult where
  entries : List DiffEntry
  totalChanges : Nat
  hasChanges : Bool
deriving DecidableEq, Repr

/-- The sort comparator used by `computeDiff`: by category, then by field
name (`localeCompare` modeled as the codepoint order). -/
def diffLE (a b : DiffEntry) : Prop :=
  a.category < b.category ∨ (a.category = b.category ∧ a.field ≤ b.field)

instance : DecidableRel diffLE := by
  intro a b
  unfold diffLE
  infer_instance

instance : IsTotal DiffEntry diffLE := by
  constructor
  intro a b
  rcases lt_trichotomy a.category b.category with h | h | h
  · exact Or.inl (Or.inl h)
  · rcases le_total a.field b.field with hf | hf
    · exact Or.inl (Or.inr ⟨h, hf⟩)
    · exact Or.inr (Or.inr ⟨h.symm, hf⟩)
  · exact Or.inr (Or.inl h)

instance : IsTrans DiffEntry diffLE := by
  constructor
  intro a b c hab hbc
  rcases hab with hab | ⟨hab, haf⟩
  · rcases hbc with hbc | ⟨hbc, _⟩
    · exact Or.inl (hab.trans hbc)
    · exact Or.inl (hbc ▸ hab)
  · rcases hbc with hbc | ⟨hbc, hbf⟩
    · exact Or.inl (hab ▸ hbc)
    · exact Or.inr ⟨hab.trans hbc, haf.trans hbf⟩

/-- The loop body of `computeDiff`: the entry produced for one key of the
union, or `none` when the two values agree (absent reads as `""`). -/
def diffEntryFor (config defaults : Config) (field : String) :
    Option DiffEntry :=
  let currentValue := getValD config field
  let defaultValue := getValD defaults field
  if currentValue = defaultValue then
    none
  else
    some { field := field
           category := getFieldCategory field
           type :=
             if defaultValue = "" ∧ currentValue ≠ "" then DiffType.added
             else if currentValue = "" ∧ defaultValue ≠ "" then DiffType.removed
             else DiffType.modified
           currentValue := currentValue
           defaultValue := defaultValue }

/-- The unsorted entry list of `computeDiff`: one candidate per key of the
deduplicated union of the two key sets. -/
def diffRawEntries (config defaults : Config) : List DiffEntry :=
  ((keysOf config ++ keysOf defaults).dedup).filterMap
    (diffEntryFor config defaults)

/-- Embedding of `computeDiff` from the diff service: union of keys, value-based
classification (absent reads as `""`), entries sorted by (category, field). -/
def computeDiff (config defaults : Config) : DiffResult :=
  let sorted := (diffRawEntries config defaults).insertionSort diffLE
  { entries := sorted
    totalChanges := sorted.length
    hasChanges := decide (0 < sorted.length) }

/-- Replace the value stored under a key, keeping insertion order. -/
def replaceVal : Config → String → String → Config
  | [], _, _ => []
  | (k, v) :: rest, field, value =>
    if k = field then (k, value) :: replaceVal rest field value
    else (k, v) :: replaceVal rest field value

/-- Embedding of `{ ...config }` with `newConfig[field] = value`: replace the value at an
existing key in place, else append the new binding at the end. -/
def setVal (config : Config) (field value : String) : Config :=
  if field ∈ keysOf config then replaceVal config field value
  else config ++ [(field, value)]

/-- Embedding of `delete newConfig[field]`: drop the binding for a key. -/
def delVal : Config → String → Config
  | [], _ => []
  | (k, v) :: rest, field =>
    if k = field then delVal rest field else (k, v) :: delVal rest field

/-- Embedding of `revertField` from the diff service: restore the default value when the
field is a key of `defaults`, else remove the key; the input map is unchanged
(the embedding is pure, matching the `{ ...config }` copy in the source). -/
def revertField (field : String) (config defaults : Config) : Config :=
  if field ∈ keysOf defaults then
    setVal config field (getValD defaults field)
  else
    delVal config field

/-- Embedding of `revertAll` from the diff service: a shallow copy of `defaults`. -/
def revertAll (_config defaults : Config) : Config :=
  defaults

-- ============================================================================
-- Validation rule engine (constants.ts / rules.ts / validator.ts)
-- ============================================================================

/-- Embedding of `ValidationRuleType` from `types.ts`. -/
inductive RuleType where
  | required
  | numeric
  | pattern
  | dependency
  | enum
  | boolean
deriving DecidableEq, Repr

/-- The severity tag on a `ValidationError`: the union of "error" and
"warning". -/
inductive ErrSeverity where
  | error
  | warning
deriving DecidableEq, Repr

/-- Embedding of `ValidationError` from `types.ts`. -/
structure ValidationError where
  field : String
  message : String
  type : ErrSeverity
deriving DecidableEq, Repr

/-- Embedding of `ValidationResult` from `types.ts` (`valid` is a JS boolean). -/
structure ValidationResult where
  valid : Bool
  errors : List ValidationError
  warnings : List ValidationError
deriving DecidableEq, Repr

/-- Embedding of `FieldValidationRule` from `types.ts`. -/
structure FieldValidationRule where
  type : RuleType
  message : String
  validate : String → Config → Bool

/-- Embedding of `ENUM_VALUES` from `constants.ts`. -/
def ENUM_VALUES : List (String × List String) := [
  ("N8N_PROTOCOL", ["http", "https"]),
  ("DB_TYPE", ["sqlite", "postgresdb"]),
  ("EXECUTIONS_MODE", ["regular", "queue"]),
  ("EXECUTIONS_DATA_SAVE_ON_ERROR", ["all", "none"]),
  ("EXECUTIONS_DATA_SAVE_ON_SUCCESS", ["all", "none"]),
  ("N8N_SAMESITE_COOKIE", ["strict", "lax", "none"]),
  ("N8N_LOG_LEVEL", ["info", "warn", "error", "debug"]),
  ("N8N_LOG_OUTPUT", ["console", "file"]),
  ("N8N_LOG_FORMAT", ["text", "json"]),
  ("N8N_DEFAULT_BINARY_DATA_MODE", ["default", "filesystem", "s3", "database"]),
  ("N8N_SOURCECONTROL_DEFAULT_SSH_KEY_TYPE", ["ed25519", "rsa"])]

/-- Embedding of `REQUIRED_FIELDS` from `constants.ts`. -/
def REQUIRED_FIELDS : List String :=
  ["N8N_HOST", "N8N_PORT", "DB_TYPE"]

/-- Embedding of `POSTGRES_REQUIRED_FIELDS` from `constants.ts`. -/
def POSTGRES_REQUIRED_FIELDS : List String :=
  ["DB_POSTGRESDB_HOST", "DB_POSTGRESDB_PORT", "DB_POSTGRESDB_DATABASE",
   "DB_POSTGRESDB_USER"]

/-- Embedding of `REDIS_REQUIRED_FIELDS` from `constants.ts`. -/
def REDIS_REQUIRED_FIELDS : List String :=
  ["QUEUE_BULL_REDIS_HOST", "QUEUE_BULL_REDIS_PORT"]

/-- Embedding of `NUMERIC_FIELDS` from `constants.ts`. -/
def NUMERIC_FIELDS : List String := [
  "N8N_PORT", "N8N_GRACEFUL_SHUTDOWN_TIMEOUT", "N8N_PROXY_HOPS",
  "DB_POSTGRESDB_PORT", "DB_POSTGRESDB_POOL_SIZE", "DB_SQLITE_POOL_SIZE",
  "EXECUTIONS_TIMEOUT", "EXECUTIONS_TIMEOUT_MAX", "EXECUTIONS_DATA_MAX_AGE",
  "EXECUTIONS_DATA_PRUNE_MAX_COUNT", "N8N_CONCURRENCY_PRODUCTION_LIMIT",
  "QUEUE_BULL_REDIS_PORT", "QUEUE_BULL_REDIS_DB", "QUEUE_HEALTH_CHECK_PORT",
  "N8N_USER_MANAGEMENT_JWT_DURATION_HOURS", "N8N_LOG_FILE_COUNT_MAX",
  "N8N_LOG_FILE_SIZE_MAX", "N8N_SMTP_PORT", "N8N_PAYLOAD_SIZE_MAX"]

/-- Embedding of `BOOLEAN_FIELDS` from `constants.ts`. -/
def BOOLEAN_FIELDS : List String := [
  "N8N_DISABLE_UI", "N8N_TEMPLATES_ENABLED", "DB_POSTGRESDB_SSL_ENABLED",
  "EXECUTIONS_DATA_PRUNE", "QUEUE_BULL_REDIS_TLS", "QUEUE_HEALTH_CHECK_ACTIVE",
  "N8N_MULTI_MAIN_SETUP_ENABLED", "OFFLOAD_MANUAL_EXECUTIONS_TO_WORKERS",
  "N8N_SECURE_COOKIE", "N8N_BLOCK_ENV_ACCESS_IN_NODE",
  "N8N_BLOCK_FILE_ACCESS_TO_N8N_FILES", "N8N_MFA_ENABLED",
  "DB_LOGGING_ENABLED", "N8N_SMTP_SSL", "N8N_SMTP_STARTTLS",
  "N8N_DIAGNOSTICS_ENABLED", "N8N_METRICS", "N8N_PUBLIC_API_DISABLED",
  "N8N_COMMUNITY_PACKAGES_ENABLED", "N8N_PYTHON_ENABLED"]

/-- The test `/^-?\d+$/.test(value)`: an optional leading minus sign followed
by one or more decimal digits, nothing else. -/
def isIntegerString (s : String) : Bool :=
  match s.data with
  | [] => false
  | '-' :: rest => !rest.isEmpty && rest.all Char.isDigit
  | l => l.all Char.isDigit

/-- Embedding of `createNumericRule` from `constants.ts`. -/
def createNumericRule (fieldName : String) : FieldValidationRule :=
  { type := RuleType.numeric
    message := fieldName ++ " must be a valid number"
    validate := fun value _ =>
      if value = "" then true else isIntegerString value }

/-- Embedding of `createBooleanRule` from `constants.ts`. -/
def createBooleanRule (fieldName : String) : FieldValidationRule :=
  { type := RuleType.boolean
    message := fieldName ++ " must be \x27true\x27 or \x27false\x27"
    validate := fun value _ =>
      if value = "" then true else value == "true" || value == "false" }

/-- Embedding of `createEnumRule` from `constants.ts`. -/
def createEnumRule (fieldName : String) (allowedValues : List String) :
    FieldValidationRule :=
  { type := RuleType.enum
    message := fieldName ++ " must be one of: " ++
      String.intercalate ", " allowedValues
    validate := fun value _ =>
      if value = "" then true else allowedValues.contains value }

/-- Embedding of `createRequiredRule` from `constants.ts`: the value must be
neither empty nor undefined; an undefined value cannot reach the embedding. -/
def createRequiredRule (fieldName : String) : FieldValidationRule :=
  { type := RuleType.required
    message := fieldName ++ " is required"
    validate := fun value _ => value != "" }

/-- Embedding of `createPostgresDependencyRule` from `constants.ts`. -/
def createPostgresDependencyRule (fieldName : String) : FieldValidationRule :=
  { type := RuleType.dependency
    message := fieldName ++ " is required when using PostgreSQL database"
    validate := fun value config =>
      if getVal config "DB_TYPE" ≠ some "postgresdb" then true
      else value.trim != "" }

/-- Embedding of `createRedisDependencyRule` from `constants.ts`. -/
def createRedisDependencyRule (fieldName : String) : FieldValidationRule :=
  { type := RuleType.dependency
    message := fieldName ++ " is required when using Queue mode"
    validate := fun value config =>
      if getVal config "EXECUTIONS_MODE" ≠ some "queue" then true
      else value.trim != "" }

/-- Embedding of `buildFieldRules` from `rules.ts`: the ordered accumulation of rules for
one field name. -/
def buildFieldRules (fieldName : String) : List FieldValidationRule :=
  (if fieldName ∈ REQUIRED_FIELDS then [createRequiredRule fieldName] else []) ++
  (if fieldName ∈ NUMERIC_FIELDS then [createNumericRule fieldName] else []) ++
  (if fieldName ∈ BOOLEAN_FIELDS then [createBooleanRule fieldName] else []) ++
  (match getVal ENUM_VALUES fieldName with
   | some allowed => [createEnumRule fieldName allowed]
   | none => []) ++
  (if fieldName ∈ POSTGRES_REQUIRED_FIELDS then
    [createPostgresDependencyRule fieldName] else []) ++
  (if fieldName ∈ REDIS_REQUIRED_FIELDS then
    [createRedisDependencyRule fieldName] else [])

/-- Embedding of `getFieldRules` from `rules.ts`; the per-field cache is a pure
memoization and is dropped in the embedding. -/
def getFieldRules (fieldName : String) : List FieldValidationRule :=
  buildFieldRules fieldName

/-- Embedding of `validateField` from `validator.ts`: one error per failing rule, in rule
order. -/
def validateField (fieldName value : String) (config : Config) :
    List ValidationError :=
  ((getFieldRules fieldName).filter
      (fun rule => !(rule.validate value config))).map
    (fun rule =>
      { field := fieldName, message := rule.message, type := ErrSeverity.error })

/-- The emptiness test of the dependency passes in `validateConfig`: the
value is undefined, null, or empty after trimming. -/
def isEmptyValue (value : Option String) : Bool :=
  match value with
  | none => true
  | some s => s.trim == ""

/-- One iteration of the PostgreSQL dependency pass of `validateConfig`:
append a dependency error unless one for that exact field is already there. -/
def postgresPassStep (config : Config) (errors : List ValidationError)
    (field : String) : List ValidationError :=
  if isEmptyValue (getVal config field) then
    if errors.any (fun e => e.field == field && e.type == ErrSeverity.error) then
      errors
    else
      errors ++ [{ field := field
                   message := field ++ " is required when using PostgreSQL database"
                   type := ErrSeverity.error }]
  else errors

/-- One iteration of the Redis dependency pass of `validateConfig`. -/
def redisPassStep (config : Config) (errors : List ValidationError)
    (field : String) : List ValidationError :=
  if isEmptyValue (getVal config field) then
    if errors.any (fun e => e.field == field && e.type == ErrSeverity.error) then
      errors
    else
      errors ++ [{ field := field
                   message := field ++ " is required when using Queue mode"
                   type := ErrSeverity.error }]
  else errors

/-- The per-field loop of `validateConfig`: `validateField` over every
`[fieldName, value]` entry of the map, all errors accumulated in order. -/
def perFieldErrors (config : Config) : List ValidationError :=
  config.flatMap (fun kv => validateField kv.1 kv.2 config)

/-- The PostgreSQL dependency pass of `validateConfig`, guarded on
`config.DB_TYPE` being exactly "postgresdb". -/
def postgresPass (config : Config) (errors : List ValidationError) :
    List ValidationError :=
  if getVal config "DB_TYPE" = some "postgresdb" then
    POSTGRES_REQUIRED_FIELDS.foldl (postgresPassStep config) errors
  else errors

/-- The Redis dependency pass of `validateConfig`, guarded on
`config.EXECUTIONS_MODE` being exactly "queue". -/
def redisPass (config : Config) (errors : List ValidationError) :
    List ValidationError :=
  if getVal config "EXECUTIONS_MODE" = some "queue" then
    REDIS_REQUIRED_FIELDS.foldl (redisPassStep config) errors
  else errors

/-- Embedding of `validateConfig` from `validator.ts`: per-field validation over the keys
present in the map, then the PostgreSQL and Redis dependency passes;
`valid` is `errors.length === 0` and `warnings` is always empty. -/
def validateConfig (config : Config) : ValidationResult :=
  let errors2 := redisPass config (postgresPass config (perFieldErrors config))
  { valid := errors2.isEmpty
    errors := errors2
    warnings := [] }

/-- Embedding of `canGenerate` from `validator.ts`. -/
def canGenerate (config : Config) : Bool :=
  (validateConfig config).valid

-- ============================================================================
-- Output generator (n8n-config.ts)
-- ============================================================================

/-- JavaScript `x || d` on an optional string: the default replaces both an
absent and an empty (falsy) value. -/
def orDefault (x : Option String) (d : String) : String :=
  match x with
  | none => d
  | some v => if v = "" then d else v

/-- Contiguous-substring test on character lists (no native regex in the
embedding): the pattern occurs as an infix. -/
def containsSub (pat : List Char) : List Char → Bool
  | [] => pat.isEmpty
  | c :: rest => pat.isPrefixOf (c :: rest) || containsSub pat rest

/-- Substring containment, used to model the case-insensitive regex tests of
`SENSITIVE_PATTERNS` after lowercasing. -/
def hasSubstr (s pat : String) : Bool :=
  containsSub pat.data s.data

/-- ASCII lowercasing of a string, character by character (the model of the
`/i` regex flag; `String.toLower` maps `Char.toLower` over the data). -/
def toLowerStr (s : String) : String :=
  ⟨s.data.map Char.toLower⟩

/-- Embedding of `isSensitiveField` from `n8n-config.ts`: the name matches one of
`/password/i`, `/secret/i`, `/key/i`, `/token/i`, `/credential/i`,
`/pass$/i` (case-insensitivity modeled by lowercasing both sides; the
anchored pattern is a suffix test). -/
def isSensitiveField (fieldName : String) : Bool :=
  let n := toLowerStr fieldName
  hasSubstr n "password" || hasSubstr n "secret" || hasSubstr n "key" ||
    hasSubstr n "token" || hasSubstr n "credential" ||
    List.isSuffixOf "pass".data n.data

/-- Embedding of `SECRET_PLACEHOLDER` from `n8n-config.ts`. -/
def SECRET_PLACEHOLDER : String := "********"

/-- Embedding of `maskSensitiveValues` from `n8n-config.ts`. -/
def maskSensitiveValues (entries : List (String × String))
    (maskSecrets : Bool) : List (String × String) :=
  if !maskSecrets then entries
  else entries.map (fun kv =>
    if isSensitiveField kv.1 && kv.2 != "" then (kv.1, SECRET_PLACEHOLDER)
    else kv)

/-- Embedding of `GeneratorOptions` from `types.ts`; `format` is the runtime string of the
TS union type, the optional fields are `Option`s. -/
structure GeneratorOptions where
  format : String
  composeVersion : Option String := none
  maskSecrets : Option Bool := none
  includeComments : Option Bool := none
  wizardVersion : Option String := none
deriving DecidableEq, Repr

/-- The entry pipeline at the top of `generateOutput`: drop entries with an
empty value, then apply secret masking. -/
def processEntries (config : Config) (maskSecrets : Bool) :
    List (String × String) :=
  maskSensitiveValues (config.filter (fun kv => kv.2 != "")) maskSecrets

/-- Embedding of `generateHeader` from `n8n-config.ts`, at line granularity; `now` stands
for `new Date().toISOString()`. -/
def generateHeaderLines (format : String) (wizardVersion : Option String)
    (includeComments : Bool) (now : String) : List String :=
  if !includeComments && format != "env" then []
  else
    let version := orDefault wizardVersion "1.0.0"
    if format == "env" then
      ["# Generated by n8n Configuration Wizard v" ++ version,
       "# Timestamp: " ++ now, "#"]
    else if format == "docker-compose" && includeComments then
      ["# Generated by n8n Configuration Wizard v" ++ version,
       "# Timestamp: " ++ now, "#"]
    else if format == "docker-run" && includeComments then
      ["# Generated by n8n Configuration Wizard v" ++ version,
       "# Timestamp: " ++ now]
    else if format == "kubernetes" && includeComments then
      ["# Generated by n8n Configuration Wizard v" ++ version,
       "# Timestamp: " ++ now,
       "# This manifest includes a ConfigMap and Deployment for n8n", "---"]
    else []

/-- Embedding of `generateEnvOutput` from `n8n-config.ts`, at line granularity.  With no
entries, `[].join("\n")` leaves one empty line after the header. -/
def generateEnvLines (entries : List (String × String))
    (options : GeneratorOptions) (now : String) : List String :=
  let header := generateHeaderLines "env" options.wizardVersion true now
  header ++
    (if entries.isEmpty then [""]
     else entries.map (fun kv => kv.1 ++ "=" ++ kv.2))

/-- Embedding of `generateDockerComposeOutput` from `n8n-config.ts`, at line granularity.
The database service block is appended only when `DB_TYPE` is
`"postgresdb"`, the queue service block only when `EXECUTIONS_MODE` is
`"queue"`, and the volumes section matches the emitted blocks. -/
def generateDockerComposeLines (config : Config)
    (entries : List (String × String)) (options : GeneratorOptions)
    (now : String) : List String :=
  let composeVersion := orDefault options.composeVersion "3.8"
  let includeComments := options.includeComments.getD false
  let header :=
    generateHeaderLines "docker-compose" options.wizardVersion includeComments now
  let envVarLines :=
    if entries.isEmpty then [""]
    else entries.map (fun kv => "      - " ++ kv.1 ++ "=" ++ kv.2)
  let n8nServiceComment :=
    if includeComments then
      ["  # n8n workflow automation service",
       "  # Documentation: https://docs.n8n.io/"]
    else []
  let volumesComment :=
    if includeComments then ["# Persistent volumes for data storage"] else []
  let postgresComment :=
    if includeComments then ["  # PostgreSQL database for n8n data persistence"]
    else []
  let redisComment :=
    if includeComments then ["  # Redis for queue mode execution"] else []
  header ++
  ["version: \x27" ++ composeVersion ++ "\x27", "", "services:"] ++
  n8nServiceComment ++
  ["  n8n:",
   "    image: docker.n8n.io/n8nio/n8n",
   "    restart: always",
   "    ports:",
   "      - \"" ++ orDefault (getVal config "N8N_PORT") "5678" ++ ":5678\"",
   "    environment:"] ++
  envVarLines ++
  ["    volumes:",
   "      - n8n_data:/home/node/.n8n"] ++
  (if getVal config "DB_TYPE" = some "postgresdb" then
    [""] ++ postgresComment ++
    ["  postgres:",
     "    image: postgres:15-alpine",
     "    restart: always",
     "    environment:",
     "      - POSTGRES_USER=" ++
       orDefault (getVal config "DB_POSTGRESDB_USER") "postgres",
     "      - POSTGRES_PASSWORD=" ++
       orDefault (getVal config "DB_POSTGRESDB_PASSWORD") "password",
     "      - POSTGRES_DB=" ++
       orDefault (getVal config "DB_POSTGRESDB_DATABASE") "n8n",
     "    volumes:",
     "      - postgres_data:/var/lib/postgresql/data"]
   else []) ++
  (if getVal config "EXECUTIONS_MODE" = some "queue" then
    [""] ++ redisComment ++
    ["  redis:",
     "    image: redis:7-alpine",
     "    restart: always",
     "    volumes:",
     "      - redis_data:/data"]
   else []) ++
  [""] ++ volumesComment ++
  ["volumes:", "  n8n_data:"] ++
  (if getVal config "DB_TYPE" = some "postgresdb" then ["  postgres_data:"]
   else []) ++
  (if getVal config "EXECUTIONS_MODE" = some "queue" then ["  redis_data:"]
   else [])

/-- Embedding of `generateDockerRunOutput` from `n8n-config.ts`, at line granularity.
With no entries, joining leaves the line `   \` in the middle of the
command. -/
def generateDockerRunLines (config : Config)
    (entries : List (String × String)) (options : GeneratorOptions)
    (now : String) : List String :=
  let includeComments := options.includeComments.getD false
  let header :=
    generateHeaderLines "docker-run" options.wizardVersion includeComments now
  let envFlagLines :=
    if entries.isEmpty then ["   \\"]
    else entries.map (fun kv => "  -e " ++ kv.1 ++ "=\"" ++ kv.2 ++ "\" \\")
  header ++
  ["docker run -d \\",
   "  --name n8n \\",
   "  --restart always \\",
   "  -p " ++ orDefault (getVal config "N8N_PORT") "5678" ++ ":5678 \\"] ++
  envFlagLines ++
  ["  -v n8n_data:/home/node/.n8n \\",
   "  docker.n8n.io/n8nio/n8n"]

/-- Escaping of embedded double quotes in ConfigMap values (the global
regex replace in the source). -/
def escapeQuotes (s : String) : String :=
  ⟨s.data.flatMap (fun c => if c = '"' then ['\\', '"'] else [c])⟩

/-- Embedding of `generateKubernetesOutput` from `n8n-config.ts`, at line granularity. -/
def generateKubernetesLines (entries : List (String × String))
    (options : GeneratorOptions) (now : String) : List String :=
  let includeComments := options.includeComments.getD false
  let header :=
    generateHeaderLines "kubernetes" options.wizardVersion includeComments now
  let configMapComment :=
    if includeComments then ["# ConfigMap containing n8n environment variables"]
    else []
  let deploymentComment :=
    if includeComments then ["# Deployment for n8n workflow automation"] else []
  let dataLines :=
    if entries.isEmpty then [""]
    else entries.map (fun kv =>
      "  " ++ kv.1 ++ ": \"" ++ escapeQuotes kv.2 ++ "\"")
  let envRefLines :=
    if entries.isEmpty then [""]
    else entries.flatMap (fun kv =>
      ["        - name: " ++ kv.1,
       "          valueFrom:",
       "            configMapKeyRef:",
       "              name: n8n-config",
       "              key: " ++ kv.1])
  header ++ configMapComment ++
  ["apiVersion: v1",
   "kind: ConfigMap",
   "metadata:",
   "  name: n8n-config",
   "  labels:",
   "    app: n8n",
   "data:"] ++
  dataLines ++
  ["---"] ++ deploymentComment ++
  ["apiVersion: apps/v1",
   "kind: Deployment",
   "metadata:",
   "  name: n8n",
   "  labels:",
   "    app: n8n",
   "spec:",
   "  replicas: 1",
   "  selector:",
   "    matchLabels:",
   "      app: n8n",
   "  template:",
   "    metadata:",
   "      labels:",
   "        app: n8n",
   "    spec:",
   "      containers:",
   "      - name: n8n",
   "        image: docker.n8n.io/n8nio/n8n",
   "        ports:",
   "        - containerPort: 5678",
   "        env:"] ++
  envRefLines ++
  ["        volumeMounts:",
   "        - name: n8n-data",
   "          mountPath: /home/node/.n8n",
   "      volumes:",
   "      - name: n8n-data",
   "        persistentVolumeClaim:",
   "          claimName: n8n-data-pvc",
   "---",
   "apiVersion: v1",
   "kind: Service",
   "metadata:",
   "  name: n8n",
   "  labels:",
   "    app: n8n",
   "spec:",
   "  type: ClusterIP",
   "  ports:",
   "  - port: 5678",
   "    targetPort: 5678",
   "  selector:",
   "    app: n8n"]

/-- Embedding of `generateOutput` from `n8n-config.ts`.  The TypeScript overload
`OutputFormat | GeneratorOptions` is the sum type; the unknown-format default
branch returns the empty string.  Lines are joined with newlines. -/
def generateOutput (config : Config)
    (formatOrOptions : String ⊕ GeneratorOptions) (now : String) : String :=
  let options : GeneratorOptions :=
    match formatOrOptions with
    | Sum.inl format => { format := format }
    | Sum.inr o => o
  let format := options.format
  let maskSecrets := options.maskSecrets.getD false
  let entries := processEntries config maskSecrets
  if format = "env" then
    String.intercalate "\n" (generateEnvLines entries options now)
  else if format = "docker-compose" then
    String.intercalate "\n" (generateDockerComposeLines config entries options now)
  else if format = "docker-run" then
    String.intercalate "\n" (generateDockerRunLines config entries options now)
  else if format = "kubernetes" then
    String.intercalate "\n" (generateKubernetesLines entries options now)
  else ""

-- ============================================================================
-- Error-shape helpers (used to state the validator claims)
-- ============================================================================

/-- The message of a PostgreSQL dependency error for a field, as produced
both by `createPostgresDependencyRule` and by the dependency pass. -/
def pgDepMessage (f : String) : String :=
  f ++ " is required when using PostgreSQL database"

/-- The message of a Redis dependency error for a field. -/
def redisDepMessage (f : String) : String :=
  f ++ " is required when using Queue mode"

/-- The message of a numeric-rule error for a field. -/
def numericMessage (f : String) : String :=
  f ++ " must be a valid number"

/-- The `alreadyHasError` test of the dependency passes: an error entry for
this exact field. -/
def isErrorFor (f : String) (e : ValidationError) : Bool :=
  e.field == f && e.type == ErrSeverity.error

/-- A PostgreSQL dependency error for a field: right field, right message. -/
def isPgDepError (f : String) (e : ValidationError) : Bool :=
  e.field == f && e.message == pgDepMessage f

/-- A numeric-type error for a field, recognized by its message (the
`ValidationError` record does not carry the rule kind). -/
def isNumericErrorFor (f : String) (e : ValidationError) : Bool :=
  e.message == numericMessage f

-- ============================================================================
-- Association-list lemmas
-- ============================================================================

theorem getVal_eq_none_iff {α : Type} (l : List (String × α)) (k : String) :
    getVal l k = none ↔ k ∉ l.map Prod.fst := by
  induction l with
  | nil => simp [getVal]
  | cons kv rest ih =>
    obtain ⟨a, b⟩ := kv
    by_cases h : a = k
    · subst h
      simp [getVal]
    · simp [getVal, h, ih, Ne.symm h]

theorem getVal_isSome_of_mem_keys {α : Type} {l : List (String × α)}
    {k : String} (h : k ∈ l.map Prod.fst) : ∃ v, getVal l k = some v := by
  cases hv : getVal l k with
  | none => exact absurd h ((getVal_eq_none_iff l k).mp hv)
  | some v => exact ⟨v, rfl⟩

theorem getVal_append {α : Type} (l₁ l₂ : List (String × α)) (k : String) :
    getVal (l₁ ++ l₂) k =
      match getVal l₁ k with
      | some v => some v
      | none => getVal l₂ k := by
  induction l₁ with
  | nil => simp [getVal]
  | cons kv rest ih =>
    obtain ⟨a, b⟩ := kv
    by_cases h : a = k
    · simp [getVal, h]
    · simp [getVal, h, ih]

theorem getVal_replaceVal_self (c : Config) (f v : String) :
    getVal (replaceVal c f v) f = if f ∈ keysOf c then some v else none := by
  induction c with
  | nil => simp [replaceVal, getVal, keysOf]
  | cons kv rest ih =>
    obtain ⟨a, b⟩ := kv
    by_cases haf : a = f
    · subst haf
      simp [replaceVal, getVal, keysOf]
    · have hmem : (f ∈ a :: List.map Prod.fst rest) ↔ f ∈ List.map Prod.fst rest := by
        simp [Ne.symm haf]
      simp only [replaceVal, if_neg haf, getVal, ih, keysOf]
      exact (if_congr hmem rfl rfl).symm

theorem getVal_setVal_self (c : Config) (f v : String) :
    getVal (setVal c f v) f = some v := by
  rw [setVal]
  split_ifs with h
  · rw [getVal_replaceVal_self, if_pos h]
  · rw [getVal_append]
    have hnone : getVal c f = none :=
      (getVal_eq_none_iff c f).mpr (by simpa [keysOf] using h)
    simp [hnone, getVal]

theorem getVal_replaceVal_ne (c : Config) (f v k : String) (hk : k ≠ f) :
    getVal (replaceVal c f v) k = getVal c k := by
  induction c with
  | nil => rfl
  | cons kv rest ih =>
    obtain ⟨a, b⟩ := kv
    by_cases haf : a = f
    · have hak : ¬a = k := fun ha => hk ((ha.symm.trans haf : k = f))
      simp [replaceVal, getVal, haf, hak, ih, Ne.symm hk]
    · by_cases hak : a = k
      · simp [replaceVal, getVal, haf, hak, hk]
      · simp [replaceVal, getVal, haf, hak, ih]

theorem getVal_setVal_ne (c : Config) (f v k : String) (hk : k ≠ f) :
    getVal (setVal c f v) k = getVal c k := by
  rw [setVal]
  split_ifs with h
  · exact getVal_replaceVal_ne c f v k hk
  · rw [getVal_append]
    cases hv : getVal c k with
    | none => simp [getVal, Ne.symm hk]
    | some v' => simp

theorem getVal_delVal_self (c : Config) (f : String) :
    getVal (delVal c f) f = none := by
  induction c with
  | nil => rfl
  | cons kv rest ih =>
    obtain ⟨a, b⟩ := kv
    by_cases haf : a = f
    · simp [delVal, haf, ih]
    · simp [delVal, getVal, haf, ih]

theorem getVal_delVal_ne (c : Config) (f k : String) (hk : k ≠ f) :
    getVal (delVal c f) k = getVal c k := by
  induction c with
  | nil => rfl
  | cons kv rest ih =>
    obtain ⟨a, b⟩ := kv
    by_cases haf : a = f
    · have hak : ¬a = k := fun ha => hk ((ha.symm.trans haf : k = f))
      simp [delVal, getVal, haf, hak, ih, Ne.symm hk]
    · by_cases hak : a = k
      · simp [delVal, getVal, haf, hak, hk]
      · simp [delVal, getVal, haf, hak, ih]

-- ============================================================================
-- Diff engine lemmas
-- ============================================================================

theorem diffEntryFor_eq_none_iff (c d : Config) (k : String) :
    diffEntryFor c d k = none ↔ getValD c k = getValD d k := by
  by_cases h : getValD c k = getValD d k <;> simp [diffEntryFor, h]

theorem diffEntryFor_some_spec {c d : Config} {k : String} {e : DiffEntry}
    (h : diffEntryFor c d k = some e) :
    e.field = k ∧ e.category = getFieldCategory k ∧
    e.currentValue = getValD c k ∧ e.defaultValue = getValD d k ∧
    e.currentValue ≠ e.defaultValue ∧
    e.type = (if e.defaultValue = "" then DiffType.added
              else if e.currentValue = "" then DiffType.removed
              else DiffType.modified) := by
  by_cases hne : getValD c k = getValD d k
  · simp [diffEntryFor, hne] at h
  · rw [diffEntryFor] at h
    simp only [hne, if_false, Option.some.injEq] at h
    subst h
    refine ⟨rfl, rfl, rfl, rfl, hne, ?_⟩
    by_cases hd : getValD d k = ""
    · have hc : getValD c k ≠ "" := fun hc => hne (hc.trans hd.symm)
      simp [hd, hc]
    · by_cases hc : getValD c k = ""
      · simp [hd, hc]
      · simp [hd, hc]

theorem countP_field_filterMap_diff (c d : Config) (k : String)
    (l : List String) (hl : l.Nodup) :
    ((l.filterMap (diffEntryFor c d)).countP (fun e => e.field == k)) =
      if k ∈ l ∧ getValD c k ≠ getValD d k then 1 else 0 := by
  induction l with
  | nil => simp
  | cons a l ih =>
    have ha : a ∉ l := (List.nodup_cons.mp hl).1
    have hl' : l.Nodup := (List.nodup_cons.mp hl).2
    rw [List.filterMap_cons]
    cases h : diffEntryFor c d a with
    | none =>
      rw [ih hl']
      by_cases hk : k = a
      · subst hk
        have heq : getValD c k = getValD d k := (diffEntryFor_eq_none_iff c d k).mp h
        simp [heq]
      · simp [List.mem_cons, hk]
    | some e =>
      rw [List.countP_cons, ih hl']
      have hspec := diffEntryFor_some_spec h
      have hne : getValD c a ≠ getValD d a := by
        rw [← hspec.2.2.1, ← hspec.2.2.2.1]
        exact hspec.2.2.2.2.1
      by_cases hk : k = a
      · subst hk
        have hbeq : (e.field == k) = true := by
          rw [hspec.1]; exact beq_self_eq_true k
        simp [ha, hbeq, hne]
      · have hbeq : (e.field == k) = false := by
          rw [hspec.1]
          exact beq_eq_false_iff_ne.mpr (Ne.symm hk)
        simp [hbeq, List.mem_cons, hk]

theorem computeDiff_entries_eq (c d : Config) :
    (computeDiff c d).entries = (diffRawEntries c d).insertionSort diffLE := rfl

theorem computeDiff_countP (c d : Config) (k : String) :
    ((computeDiff c d).entries.countP (fun e => e.field == k)) =
      if getValD c k ≠ getValD d k then 1 else 0 := by
  rw [computeDiff_entries_eq,
    (List.perm_insertionSort diffLE (diffRawEntries c d)).countP_eq,
    diffRawEntries,
    countP_field_filterMap_diff c d k _ (List.nodup_dedup _)]
  by_cases hne : getValD c k = getValD d k
  · simp [hne]
  · have hk : k ∈ (keysOf c ++ keysOf d).dedup := by
      rw [List.mem_dedup, List.mem_append]
      by_contra hno
      push_neg at hno
      have h1 : getVal c k = none :=
        (getVal_eq_none_iff c k).mpr (by simpa [keysOf] using hno.1)
      have h2 : getVal d k = none :=
        (getVal_eq_none_iff d k).mpr (by simpa [keysOf] using hno.2)
      exact hne (by simp [getValD, h1, h2])
    simp [hne, hk]

theorem mem_computeDiff_entries {c d : Config} {e : DiffEntry}
    (h : e ∈ (computeDiff c d).entries) :
    e.currentValue = getValD c e.field ∧ e.defaultValue = getValD d e.field ∧
    e.category = getFieldCategory e.field ∧
    e.currentValue ≠ e.defaultValue ∧
    e.type = (if e.defaultValue = "" then DiffType.added
              else if e.currentValue = "" then DiffType.removed
              else DiffType.modified) := by
  rw [computeDiff_entries_eq] at h
  have h' : e ∈ diffRawEntries c d :=
    ((List.perm_insertionSort diffLE (diffRawEntries c d)).mem_iff).mp h
  obtain ⟨a, -, ha⟩ := List.mem_filterMap.mp h'
  obtain ⟨hf, hcat, hcur, hdef, hne, hty⟩ := diffEntryFor_some_spec ha
  subst hf
  exact ⟨hcur, hdef, hcat, hne, hty⟩

-- ============================================================================
-- Claims about the diff engine
-- ============================================================================

/-- C2: `computeDiff(config, defaults)` has exactly one entry per key of the
union of the key sets whose values differ (a missing key reads as `""`);
each entry carries the current and default values, the category of its field
and the added/removed/modified classification; entries are sorted ascending
by (category, field); `totalChanges` is the number of entries and
`hasChanges` holds exactly when `totalChanges > 0`. -/
theorem claim_C2_computeDiff_spec (config defaults : Config) :
    (∀ k : String,
      ((computeDiff config defaults).entries.countP (fun e => e.field == k)) =
        if getValD config k ≠ getValD defaults k then 1 else 0) ∧
    (∀ e ∈ (computeDiff config defaults).entries,
      e.currentValue = getValD config e.field ∧
      e.defaultValue = getValD defaults e.field ∧
      e.category = getFieldCategory e.field ∧
      e.currentValue ≠ e.defaultValue ∧
      e.type = (if e.defaultValue = "" then DiffType.added
                else if e.currentValue = "" then DiffType.removed
                else DiffType.modified)) ∧
    List.Sorted diffLE (computeDiff config defaults).entries ∧
    (computeDiff config defaults).totalChanges =
      (computeDiff config defaults).entries.length ∧
    ((computeDiff config defaults).hasChanges = true ↔
      0 < (computeDiff config defaults).totalChanges) := by
  refine ⟨computeDiff_countP config defaults,
    fun e he => mem_computeDiff_entries he, ?_, rfl, ?_⟩
  · rw [computeDiff_entries_eq]
    exact List.sorted_insertionSort diffLE (diffRawEntries config defaults)
  · exact decide_eq_true_iff

/-- C2 witness: the characterization applied to a concrete pair of maps. -/
theorem claim_C2_witness :
    ((computeDiff [("A", "1")] []).entries.countP (fun e => e.field == "A")) =
      if getValD [("A", "1")] "A" ≠ getValD [] "A" then 1 else 0 :=
  (claim_C2_computeDiff_spec [("A", "1")] []).1 "A"

/-- C9: diffing a configuration against itself yields no entries, zero
changes, and `hasChanges = false`. -/
theorem claim_C9_computeDiff_self (config : Config) :
    computeDiff config config =
      { entries := [], totalChanges := 0, hasChanges := false } := by
  have hraw : diffRawEntries config config = [] := by
    rw [diffRawEntries, List.filterMap_eq_nil_iff]
    intro a _
    exact (diffEntryFor_eq_none_iff config config a).mpr rfl
  rw [computeDiff, hraw]
  rfl

/-- C5: `revertAll(config, defaults)` is exactly (a shallow copy of)
`defaults`; in particular any key absent from `defaults` is absent from the
result, whatever `config` holds for it. -/
theorem claim_C5_revertAll (config defaults : Config) :
    revertAll config defaults = defaults ∧
    (∀ k : String, k ∉ keysOf defaults →
      getVal (revertAll config defaults) k = none) := by
  refine ⟨rfl, fun k hk => ?_⟩
  exact (getVal_eq_none_iff defaults k).mpr (by simpa [keysOf] using hk)

/-- C5 witness: a key present in the config but absent from the defaults is
dropped. -/
theorem claim_C5_witness :
    getVal (revertAll [("X", "1")] [("Y", "2")]) "X" = none :=
  (claim_C5_revertAll [("X", "1")] [("Y", "2")]).2 "X" (by decide)

/-- C6: `revertField(field, config, defaults)` reads back `defaults[field]`
at `field` (absent when `field` is not a key of `defaults`), leaves every
other key unchanged (the embedding is pure, so the input map is not
mutated), and re-diffing the result against the same defaults yields no
entry for `field`. -/
theorem claim_C6_revertField (field : String) (config defaults : Config) :
    getVal (revertField field config defaults) field = getVal defaults field ∧
    (∀ k : String, k ≠ field →
      getVal (revertField field config defaults) k = getVal config k) ∧
    (∀ e ∈ (computeDiff (revertField field config defaults) defaults).entries,
      e.field ≠ field) := by
  have hmain : getVal (revertField field config defaults) field =
      getVal defaults field := by
    rw [revertField]
    split_ifs with h
    · obtain ⟨v, hv⟩ := getVal_isSome_of_mem_keys (by simpa [keysOf] using h)
      have hvd : getValD defaults field = v := by simp [getValD, hv]
      rw [hvd, getVal_setVal_self, hv]
    · rw [getVal_delVal_self, eq_comm]
      exact (getVal_eq_none_iff defaults field).mpr (by simpa [keysOf] using h)
  refine ⟨hmain, fun k hk => ?_, fun e he hef => ?_⟩
  · rw [revertField]
    split_ifs with h
    · exact getVal_setVal_ne config field _ k hk
    · exact getVal_delVal_ne config field k hk
  · obtain ⟨hcur, hdef, -, hne, -⟩ := mem_computeDiff_entries he
    apply hne
    rw [hcur, hdef, hef]
    simp [getValD, hmain]

/-- C6 witness: reverting one field leaves the value under another key
untouched. -/
theorem claim_C6_witness :
    getVal (revertField "A" [("A", "1"), ("B", "2")] [("A", "0")]) "B" =
      getVal [("A", "1"), ("B", "2")] "B" :=
  (claim_C6_revertField "A" [("A", "1"), ("B", "2")] [("A", "0")]).2.1 "B"
    (by decide)

-- ============================================================================
-- String lemmas
-- ============================================================================

theorem string_append_left_cancel {p a b : String} (h : p ++ a = p ++ b) :
    a = b := by
  have hd : p.data ++ a.data = p.data ++ b.data := by
    have := congrArg String.data h
    rwa [String.data_append, String.data_append] at this
  exact String.ext (List.append_cancel_left hd)

theorem append_ne_append_of_ne {p a b : String} (h : a ≠ b) :
    p ++ a ≠ p ++ b :=
  fun he => h (string_append_left_cancel he)

theorem append_ne_of_take {p x t : String}
    (h : t.data.take p.data.length ≠ p.data) : p ++ x ≠ t := by
  intro he
  apply h
  rw [← he, String.data_append, List.take_left]

-- ============================================================================
-- Validator lemmas
-- ============================================================================

theorem getVal_mem {α : Type} {l : List (String × α)} {k : String} {v : α}
    (h : getVal l k = some v) : (k, v) ∈ l := by
  induction l with
  | nil => simp [getVal] at h
  | cons kv rest ih =>
    obtain ⟨a, b⟩ := kv
    by_cases hak : a = k
    · subst hak
      simp [getVal] at h
      simp [h]
    · simp [getVal, hak] at h
      exact List.mem_cons_of_mem _ (ih h)

theorem mem_validateField {f v : String} {c : Config} {e : ValidationError}
    (h : e ∈ validateField f v c) :
    e.field = f ∧ e.type = ErrSeverity.error ∧
    ∃ r ∈ getFieldRules f, r.validate v c = false ∧ e.message = r.message := by
  simp only [validateField, List.mem_map, List.mem_filter] at h
  obtain ⟨r, ⟨hr, hval⟩, he⟩ := h
  subst he
  exact ⟨rfl, rfl, r, hr, by simpa using hval, rfl⟩

theorem mem_perFieldErrors {c : Config} {e : ValidationError}
    (h : e ∈ perFieldErrors c) :
    ∃ kv ∈ c, e ∈ validateField kv.1 kv.2 c :=
  List.mem_flatMap.mp h

theorem field_mem_keys_of_mem_perFieldErrors {c : Config}
    {e : ValidationError} (h : e ∈ perFieldErrors c) : e.field ∈ keysOf c := by
  obtain ⟨kv, hkv, he⟩ := mem_perFieldErrors h
  rw [(mem_validateField he).1]
  exact List.mem_map.mpr ⟨kv, hkv, rfl⟩

theorem postgresPassStep_eq (c : Config) (errs : List ValidationError)
    (f : String) :
    postgresPassStep c errs f = errs ∨
    (postgresPassStep c errs f =
        errs ++ [{ field := f, message := pgDepMessage f,
                   type := ErrSeverity.error }] ∧
      isEmptyValue (getVal c f) = true ∧
      errs.any (isErrorFor f) = false) := by
  rw [postgresPassStep]
  by_cases h1 : isEmptyValue (getVal c f) = true
  · by_cases h2 : errs.any (fun e => e.field == f && e.type == ErrSeverity.error) = true
    · left
      simp [h1, h2]
    · right
      refine ⟨by simp [h1, h2, pgDepMessage], h1, ?_⟩
      simpa [isErrorFor] using h2
  · left
    simp [h1]

theorem redisPassStep_eq (c : Config) (errs : List ValidationError)
    (f : String) :
    redisPassStep c errs f = errs ∨
    (redisPassStep c errs f =
        errs ++ [{ field := f, message := redisDepMessage f,
                   type := ErrSeverity.error }] ∧
      isEmptyValue (getVal c f) = true ∧
      errs.any (isErrorFor f) = false) := by
  rw [redisPassStep]
  by_cases h1 : isEmptyValue (getVal c f) = true
  · by_cases h2 : errs.any (fun e => e.field == f && e.type == ErrSeverity.error) = true
    · left
      simp [h1, h2]
    · right
      refine ⟨by simp [h1, h2, redisDepMessage], h1, ?_⟩
      simpa [isErrorFor] using h2
  · left
    simp [h1]

theorem foldl_postgresPassStep_append (c : Config) (l : List String) :
    ∀ errs : List ValidationError,
      ∃ t, l.foldl (postgresPassStep c) errs = errs ++ t ∧
        ∀ e ∈ t, e.field ∈ l ∧ e.message = pgDepMessage e.field ∧
          e.type = ErrSeverity.error := by
  induction l with
  | nil => exact fun errs => ⟨[], by simp, by simp⟩
  | cons a l ih =>
    intro errs
    obtain ⟨t, ht, hmem⟩ := ih (postgresPassStep c errs a)
    rcases postgresPassStep_eq c errs a with h | ⟨h, -, -⟩
    · rw [List.foldl_cons, ht, h]
      exact ⟨t, rfl, fun e he =>
        ⟨List.mem_cons_of_mem _ (hmem e he).1, (hmem e he).2.1, (hmem e he).2.2⟩⟩
    · rw [List.foldl_cons, ht, h, List.append_assoc]
      refine ⟨_ :: t, rfl, fun e he => ?_⟩
      rcases List.mem_cons.mp he with rfl | he'
      · exact ⟨List.mem_cons_self _ _, rfl, rfl⟩
      · exact ⟨List.mem_cons_of_mem _ (hmem e he').1, (hmem e he').2.1,
          (hmem e he').2.2⟩

theorem foldl_redisPassStep_append (c : Config) (l : List String) :
    ∀ errs : List ValidationError,
      ∃ t, l.foldl (redisPassStep c) errs = errs ++ t ∧
        ∀ e ∈ t, e.field ∈ l ∧ e.message = redisDepMessage e.field ∧
          e.type = ErrSeverity.error := by
  induction l with
  | nil => exact fun errs => ⟨[], by simp, by simp⟩
  | cons a l ih =>
    intro errs
    obtain ⟨t, ht, hmem⟩ := ih (redisPassStep c errs a)
    rcases redisPassStep_eq c errs a with h | ⟨h, -, -⟩
    · rw [List.foldl_cons, ht, h]
      exact ⟨t, rfl, fun e he =>
        ⟨List.mem_cons_of_mem _ (hmem e he).1, (hmem e he).2.1, (hmem e he).2.2⟩⟩
    · rw [List.foldl_cons, ht, h, List.append_assoc]
      refine ⟨_ :: t, rfl, fun e he => ?_⟩
      rcases List.mem_cons.mp he with rfl | he'
      · exact ⟨List.mem_cons_self _ _, rfl, rfl⟩
      · exact ⟨List.mem_cons_of_mem _ (hmem e he').1, (hmem e he').2.1,
          (hmem e he').2.2⟩

theorem validateConfig_errors_eq (c : Config) :
    (validateConfig c).errors = redisPass c (postgresPass c (perFieldErrors c)) :=
  rfl

theorem validateConfig_errors_decomp (c : Config) :
    ∃ t, (validateConfig c).errors = perFieldErrors c ++ t ∧
      ∀ e ∈ t,
        (getVal c "DB_TYPE" = some "postgresdb" ∧
          e.field ∈ POSTGRES_REQUIRED_FIELDS ∧
          e.message = pgDepMessage e.field ∧ e.type = ErrSeverity.error) ∨
        (getVal c "EXECUTIONS_MODE" = some "queue" ∧
          e.field ∈ REDIS_REQUIRED_FIELDS ∧
          e.message = redisDepMessage e.field ∧ e.type = ErrSeverity.error) := by
  rw [validateConfig_errors_eq]
  have hpg : ∃ t₁, postgresPass c (perFieldErrors c) = perFieldErrors c ++ t₁ ∧
      ∀ e ∈ t₁, getVal c "DB_TYPE" = some "postgresdb" ∧
        e.field ∈ POSTGRES_REQUIRED_FIELDS ∧
        e.message = pgDepMessage e.field ∧ e.type = ErrSeverity.error := by
    rw [postgresPass]
    split_ifs with h
    · obtain ⟨t₁, ht₁, hmem⟩ :=
        foldl_postgresPassStep_append c POSTGRES_REQUIRED_FIELDS (perFieldErrors c)
      exact ⟨t₁, ht₁, fun e he =>
        ⟨h, (hmem e he).1, (hmem e he).2.1, (hmem e he).2.2⟩⟩
    · exact ⟨[], by simp, by simp⟩
  obtain ⟨t₁, ht₁, hmem₁⟩ := hpg
  rw [ht₁]
  rw [redisPass]
  split_ifs with h
  · obtain ⟨t₂, ht₂, hmem₂⟩ :=
      foldl_redisPassStep_append c REDIS_REQUIRED_FIELDS (perFieldErrors c ++ t₁)
    rw [ht₂, List.append_assoc]
    refine ⟨t₁ ++ t₂, rfl, fun e he => ?_⟩
    rcases List.mem_append.mp he with he' | he'
    · exact Or.inl (hmem₁ e he')
    · exact Or.inr ⟨h, (hmem₂ e he').1, (hmem₂ e he').2.1, (hmem₂ e he').2.2⟩
  · exact ⟨t₁, rfl, fun e he => Or.inl (hmem₁ e he)⟩

theorem postgresPassStep_of_any (c : Config) (errs : List ValidationError)
    (f : String) (hany : errs.any (isErrorFor f) = true) :
    postgresPassStep c errs f = errs := by
  have hany' : errs.any (fun e => e.field == f && e.type == ErrSeverity.error) = true :=
    hany
  rw [postgresPassStep]
  simp [hany']

theorem postgresPassStep_of_none (c : Config) (errs : List ValidationError)
    (f : String) (hemp : isEmptyValue (getVal c f) = true)
    (hany : errs.any (isErrorFor f) = false) :
    postgresPassStep c errs f =
      errs ++ [{ field := f, message := pgDepMessage f,
                 type := ErrSeverity.error }] := by
  have hany' : errs.any (fun e => e.field == f && e.type == ErrSeverity.error) = false :=
    hany
  rw [postgresPassStep, pgDepMessage]
  simp [hemp, hany']

theorem countP_postgresPassStep_ne (c : Config) (errs : List ValidationError)
    {f a : String} (hne : a ≠ f) {p : ValidationError → Bool}
    (hp : ∀ e, p e = true → e.field = f) :
    (postgresPassStep c errs a).countP p = errs.countP p ∧
    (postgresPassStep c errs a).any (isErrorFor f) = errs.any (isErrorFor f) := by
  rcases postgresPassStep_eq c errs a with h | ⟨h, -, -⟩
  · rw [h]
    exact ⟨rfl, rfl⟩
  · rw [h, List.countP_append, List.any_append]
    have hfalse :
        p { field := a, message := pgDepMessage a, type := ErrSeverity.error } = false := by
      cases hpa : p { field := a, message := pgDepMessage a, type := ErrSeverity.error } with
      | false => rfl
      | true => exact absurd (hp _ hpa) hne
    have herr :
        isErrorFor f { field := a, message := pgDepMessage a, type := ErrSeverity.error } = false := by
      simp [isErrorFor, hne]
    simp [hfalse, herr]

theorem countP_foldl_postgresPassStep (c : Config) {f : String}
    {p : ValidationError → Bool} (hp : ∀ e, p e = true → e.field = f)
    (hpx : p { field := f, message := pgDepMessage f,
               type := ErrSeverity.error } = true)
    (hemp : isEmptyValue (getVal c f) = true) :
    ∀ l : List String, l.Nodup → f ∈ l → ∀ errs : List ValidationError,
      (l.foldl (postgresPassStep c) errs).countP p =
        errs.countP p + (if errs.any (isErrorFor f) = true then 0 else 1) := by
  intro l
  induction l with
  | nil => exact fun _ hf => absurd hf (List.not_mem_nil f)
  | cons a l ih =>
    intro hnd hf errs
    rw [List.foldl_cons]
    by_cases haf : a = f
    · subst haf
      have hfl : a ∉ l := (List.nodup_cons.mp hnd).1
      obtain ⟨t, ht, hmem⟩ :=
        foldl_postgresPassStep_append c l (postgresPassStep c errs a)
      rw [ht, List.countP_append]
      have htz : t.countP p = 0 :=
        List.countP_eq_zero.mpr
          (fun e he hpe => absurd ((hp e hpe) ▸ (hmem e he).1) hfl)
      rw [htz]
      by_cases hany : errs.any (isErrorFor a) = true
      · rw [postgresPassStep_of_any c errs a hany, if_pos hany]
      · have hany' : errs.any (isErrorFor a) = false :=
          Bool.not_eq_true _ ▸ hany
        rw [postgresPassStep_of_none c errs a hemp hany', List.countP_append,
          if_neg hany]
        simp [hpx]
    · have hfl : f ∈ l := by
        rcases List.mem_cons.mp hf with h | h
        · exact absurd h.symm haf
        · exact h
      obtain ⟨hcp, hca⟩ := countP_postgresPassStep_ne c errs haf hp
      rw [ih (List.nodup_cons.mp hnd).2 hfl (postgresPassStep c errs a), hcp, hca]

theorem countP_flatMap_validateField_zero (c : Config)
    {p : ValidationError → Bool} {f : String}
    (hp : ∀ e, p e = true → e.field = f) (l : List (String × String))
    (hf : f ∉ l.map Prod.fst) :
    (l.flatMap (fun kv => validateField kv.1 kv.2 c)).countP p = 0 ∧
    (l.flatMap (fun kv => validateField kv.1 kv.2 c)).any (isErrorFor f) = false := by
  constructor
  · apply List.countP_eq_zero.mpr
    intro e he hpe
    obtain ⟨kv, hkv, hev⟩ := List.mem_flatMap.mp he
    apply hf
    rw [← hp e hpe, (mem_validateField hev).1]
    exact List.mem_map.mpr ⟨kv, hkv, rfl⟩
  · cases hb : (l.flatMap (fun kv => validateField kv.1 kv.2 c)).any (isErrorFor f) with
    | false => rfl
    | true =>
      exfalso
      obtain ⟨e, he, hpe⟩ := List.any_eq_true.mp hb
      obtain ⟨kv, hkv, hev⟩ := List.mem_flatMap.mp he
      have hef : e.field = f := by
        have := (by simpa [isErrorFor] using hpe :
          e.field = f ∧ e.type = ErrSeverity.error)
        exact this.1
      apply hf
      rw [← hef, (mem_validateField hev).1]
      exact List.mem_map.mpr ⟨kv, hkv, rfl⟩

theorem countP_flatMap_validateField_mem (c : Config)
    {p : ValidationError → Bool} {f : String}
    (hp : ∀ e, p e = true → e.field = f) :
    ∀ l : List (String × String), (l.map Prod.fst).Nodup →
      ∀ v : String, (f, v) ∈ l →
        (l.flatMap (fun kv => validateField kv.1 kv.2 c)).countP p =
          (validateField f v c).countP p ∧
        (l.flatMap (fun kv => validateField kv.1 kv.2 c)).any (isErrorFor f) =
          (validateField f v c).any (isErrorFor f) := by
  intro l
  induction l with
  | nil => exact fun _ v hv => absurd hv (List.not_mem_nil _)
  | cons kv rest ih =>
    intro hnd v hv
    obtain ⟨a, b⟩ := kv
    rw [List.flatMap_cons]
    rcases List.mem_cons.mp hv with heq | hmem
    · injection heq with h1 h2
      subst h1
      subst h2
      have hfr : f ∉ rest.map Prod.fst := by
        simpa using (List.nodup_cons.mp hnd).1
      obtain ⟨hz1, hz2⟩ := countP_flatMap_validateField_zero c hp rest hfr
      rw [List.countP_append, List.any_append, hz1, hz2]
      simp
    · have haf : a ≠ f := by
        intro h
        subst h
        exact (List.nodup_cons.mp hnd).1 (List.mem_map.mpr ⟨(a, v), hmem, rfl⟩)
      have hz1 : (validateField a b c).countP p = 0 :=
        List.countP_eq_zero.mpr
          (fun e he hpe => haf (((mem_validateField he).1).symm.trans (hp e hpe)))
      have hz2 : (validateField a b c).any (isErrorFor f) = false := by
        cases hb : (validateField a b c).any (isErrorFor f) with
        | false => rfl
        | true =>
          exfalso
          obtain ⟨e, he, hpe⟩ := List.any_eq_true.mp hb
          have hef : e.field = f := by
            have := (by simpa [isErrorFor] using hpe :
              e.field = f ∧ e.type = ErrSeverity.error)
            exact this.1
          exact haf (((mem_validateField he).1).symm.trans hef)
      rw [List.countP_append, List.any_append, hz1, hz2]
      obtain ⟨ih1, ih2⟩ := ih (List.nodup_cons.mp hnd).2 v hmem
      rw [ih1, ih2]
      simp

theorem validateField_pg_field_empty {c : Config}
    (hdb : getVal c "DB_TYPE" = some "postgresdb")
    {f : String} (hf : f ∈ POSTGRES_REQUIRED_FIELDS) {v : String}
    (hv : v.trim = "") :
    (validateField f v c).countP (isPgDepError f) = 1 ∧
    (validateField f v c).any (isErrorFor f) = true := by
  fin_cases hf <;>
    simp [validateField, getFieldRules, buildFieldRules, REQUIRED_FIELDS,
      NUMERIC_FIELDS, BOOLEAN_FIELDS, ENUM_VALUES, POSTGRES_REQUIRED_FIELDS,
      REDIS_REQUIRED_FIELDS, getVal, createNumericRule,
      createPostgresDependencyRule, hdb, hv, isPgDepError, isErrorFor,
      pgDepMessage, List.countP_cons, List.filter_cons]
  all_goals split_ifs <;>
    simp [isPgDepError, pgDepMessage, isErrorFor, List.countP_cons]

theorem validateField_no_pgDep {c : Config}
    (hdb : getVal c "DB_TYPE" ≠ some "postgresdb")
    {f : String} (hf : f ∈ POSTGRES_REQUIRED_FIELDS) (v : String) :
    ∀ e ∈ validateField f v c, isPgDepError f e = false := by
  fin_cases hf <;>
    (intro e he
     simp [validateField, getFieldRules, buildFieldRules, REQUIRED_FIELDS,
       NUMERIC_FIELDS, BOOLEAN_FIELDS, ENUM_VALUES, POSTGRES_REQUIRED_FIELDS,
       REDIS_REQUIRED_FIELDS, getVal, createNumericRule,
       createPostgresDependencyRule, hdb, List.filter_cons] at he)
  all_goals
    obtain ⟨a, ⟨-, rfl⟩, rfl⟩ := he
  all_goals simp [isPgDepError, pgDepMessage]

theorem countP_redisPass_pgDep (c : Config) (errs : List ValidationError)
    (f : String) :
    (redisPass c errs).countP (isPgDepError f) = errs.countP (isPgDepError f) := by
  rw [redisPass]
  split_ifs with h
  · obtain ⟨t, ht, hmem⟩ := foldl_redisPassStep_append c REDIS_REQUIRED_FIELDS errs
    rw [ht, List.countP_append]
    have htz : t.countP (isPgDepError f) = 0 := by
      apply List.countP_eq_zero.mpr
      intro e he hpe
      have hpe' := (by simpa [isPgDepError] using hpe :
        e.field = f ∧ e.message = pgDepMessage f)
      have hmsg : e.message = redisDepMessage e.field := (hmem e he).2.1
      rw [hpe'.1] at hmsg
      have : pgDepMessage f = redisDepMessage f := hpe'.2.symm.trans hmsg
      rw [pgDepMessage, redisDepMessage] at this
      exact absurd (string_append_left_cancel this) (by decide)
    rw [htz, Nat.add_zero]
  · rfl

/-- C1: when `DB_TYPE` is `"postgresdb"`, validation reports exactly one
PostgreSQL dependency error for each required Postgres field whose value is
absent or empty after trimming (the pass appends one only when the per-field
rules have not already produced an error for that field), and `valid` is
false; `validateConfig {DB_TYPE:"postgresdb"}` flags all four fields; when
`DB_TYPE` is not `"postgresdb"`, no Postgres dependency error is produced at
all. -/
theorem claim_C1_postgres_dependencies :
    (∀ config : Config, (keysOf config).Nodup →
      getVal config "DB_TYPE" = some "postgresdb" →
      ∀ f ∈ POSTGRES_REQUIRED_FIELDS, isEmptyValue (getVal config f) = true →
        (validateConfig config).errors.countP (isPgDepError f) = 1 ∧
        (validateConfig config).valid = false) ∧
    (∀ config : Config, getVal config "DB_TYPE" ≠ some "postgresdb" →
      ∀ f ∈ POSTGRES_REQUIRED_FIELDS,
        (validateConfig config).errors.countP (isPgDepError f) = 0) ∧
    ((validateConfig [("DB_TYPE", "postgresdb")]).valid = false ∧
      ∀ f ∈ POSTGRES_REQUIRED_FIELDS,
        ∃ e ∈ (validateConfig [("DB_TYPE", "postgresdb")]).errors,
          e.field = f) := by
  have hp : ∀ f : String, ∀ e, isPgDepError f e = true → e.field = f := by
    intro f e h
    exact (by simpa [isPgDepError] using h :
      e.field = f ∧ e.message = pgDepMessage f).1
  refine ⟨?_, ?_, by decide, by decide⟩
  · intro config hnd hdb f hf hemp
    have hpx : isPgDepError f
        { field := f, message := pgDepMessage f, type := ErrSeverity.error } = true := by
      simp [isPgDepError]
    have hcount : (validateConfig config).errors.countP (isPgDepError f) = 1 := by
      rw [validateConfig_errors_eq, countP_redisPass_pgDep]
      rw [postgresPass, if_pos hdb]
      rw [countP_foldl_postgresPassStep config (hp f) hpx hemp
        POSTGRES_REQUIRED_FIELDS (by decide) hf (perFieldErrors config)]
      cases hv : getVal config f with
      | none =>
        have hfk : f ∉ config.map Prod.fst := (getVal_eq_none_iff config f).mp hv
        obtain ⟨hz1, hz2⟩ :=
          countP_flatMap_validateField_zero config (hp f) config hfk
        rw [perFieldErrors, hz1, hz2]
        simp
      | some v =>
        have hv' : v.trim = "" := by
          have h2 := hemp
          rw [hv] at h2
          simpa [isEmptyValue] using h2
        have hmem : (f, v) ∈ config := getVal_mem hv
        obtain ⟨h1, h2⟩ :=
          countP_flatMap_validateField_mem config (hp f) config
            (by simpa [keysOf] using hnd) v hmem
        obtain ⟨hc1, hc2⟩ := validateField_pg_field_empty hdb hf hv'
        rw [perFieldErrors, h1, h2, hc1, hc2]
        simp
    refine ⟨hcount, ?_⟩
    have hval : (validateConfig config).valid =
        (validateConfig config).errors.isEmpty := rfl
    rw [hval]
    cases herr : (validateConfig config).errors with
    | nil => rw [herr] at hcount; simp at hcount
    | cons e rest => rfl
  · intro config hdb f hf
    rw [validateConfig_errors_eq, countP_redisPass_pgDep]
    rw [postgresPass, if_neg hdb]
    apply List.countP_eq_zero.mpr
    intro e he hpe
    obtain ⟨kv, hkv, hev⟩ := mem_perFieldErrors he
    have hef : e.field = kv.1 := (mem_validateField hev).1
    have hkf : kv.1 = f := hef.symm.trans (hp f e hpe)
    rw [hkf] at hev
    exact absurd hpe (by rw [validateField_no_pgDep hdb hf kv.2 e hev]; decide)

/-- C1 witness: the count and invalidity at the concrete scenario config. -/
theorem claim_C1_witness :
    (validateConfig [("DB_TYPE", "postgresdb")]).errors.countP
        (isPgDepError "DB_POSTGRESDB_HOST") = 1 ∧
    (validateConfig [("DB_TYPE", "postgresdb")]).valid = false :=
  claim_C1_postgres_dependencies.1 [("DB_TYPE", "postgresdb")] (by decide)
    (by decide) "DB_POSTGRESDB_HOST" (by decide) (by decide)

/-- C7: per-field validation runs only over keys present in the map:
`validateConfig({})` is valid with no errors; a field absent from the map is
never reported unless one of the two dependency passes applies to it; a
required field present with the empty string as its value is reported. -/
theorem claim_C7_present_keys_only :
    validateConfig [] = { valid := true, errors := [], warnings := [] } ∧
    (∀ (config : Config) (f : String), f ∉ keysOf config →
      ¬(getVal config "DB_TYPE" = some "postgresdb" ∧
          f ∈ POSTGRES_REQUIRED_FIELDS) →
      ¬(getVal config "EXECUTIONS_MODE" = some "queue" ∧
          f ∈ REDIS_REQUIRED_FIELDS) →
      ∀ e ∈ (validateConfig config).errors, e.field ≠ f) ∧
    (∀ (config : Config) (f : String), f ∈ REQUIRED_FIELDS →
      (f, "") ∈ config →
      ∃ e ∈ (validateConfig config).errors, e.field = f) := by
  refine ⟨by decide, ?_, ?_⟩
  · intro config f hk hpg hq e he hef
    obtain ⟨t, ht, hmem⟩ := validateConfig_errors_decomp config
    rw [ht] at he
    rcases List.mem_append.mp he with he' | he'
    · exact hk (hef ▸ field_mem_keys_of_mem_perFieldErrors he')
    · rcases hmem e he' with ⟨hdb, hfp, -, -⟩ | ⟨hq', hfr, -, -⟩
      · exact hpg ⟨hdb, hef ▸ hfp⟩
      · exact hq ⟨hq', hef ▸ hfr⟩
  · intro config f hf hmemc
    have hreq : ({ field := f, message := f ++ " is required",
                   type := ErrSeverity.error } : ValidationError) ∈
        validateField f "" config := by
      fin_cases hf <;>
        simp [validateField, getFieldRules, buildFieldRules, REQUIRED_FIELDS,
          NUMERIC_FIELDS, BOOLEAN_FIELDS, ENUM_VALUES, POSTGRES_REQUIRED_FIELDS,
          REDIS_REQUIRED_FIELDS, getVal, createRequiredRule, createNumericRule,
          createEnumRule, List.filter_cons]
    obtain ⟨t, ht, -⟩ := validateConfig_errors_decomp config
    refine ⟨{ field := f, message := f ++ " is required",
              type := ErrSeverity.error }, ?_, rfl⟩
    rw [ht]
    exact List.mem_append_left _
      (List.mem_flatMap.mpr ⟨(f, ""), hmemc, hreq⟩)

/-- C7 witness: a required field explicitly set to the empty string is
flagged. -/
theorem claim_C7_witness :
    ∃ e ∈ (validateConfig [("N8N_HOST", "")]).errors, e.field = "N8N_HOST" :=
  claim_C7_present_keys_only.2.2 [("N8N_HOST", "")] "N8N_HOST" (by decide)
    (by decide)

theorem countP_rule_opt_zero {P : FieldValidationRule → Bool} (c : Prop)
    [Decidable c] (r : FieldValidationRule) (h : P r = false) :
    List.countP P (if c then [r] else []) = 0 := by
  split_ifs <;> simp [List.countP_cons, h]

theorem countP_buildFieldRules_numeric (field : String)
    (P : FieldValidationRule → Bool)
    (hreq : P (createRequiredRule field) = false)
    (hbool : P (createBooleanRule field) = false)
    (henum : ∀ allowed, P (createEnumRule field allowed) = false)
    (hpg : P (createPostgresDependencyRule field) = false)
    (hredis : P (createRedisDependencyRule field) = false)
    (hf : field ∈ NUMERIC_FIELDS) :
    List.countP P (buildFieldRules field) =
      if P (createNumericRule field) = true then 1 else 0 := by
  rw [buildFieldRules, if_pos hf]
  rw [List.countP_append, List.countP_append, List.countP_append,
    List.countP_append, List.countP_append]
  rw [countP_rule_opt_zero _ _ hreq, countP_rule_opt_zero _ _ hbool,
    countP_rule_opt_zero _ _ hpg, countP_rule_opt_zero _ _ hredis]
  cases henumv : getVal ENUM_VALUES field with
  | none => simp [henumv, List.countP_cons]
  | some allowed => simp [henumv, List.countP_cons, henum allowed]

/-- C8: for every field in the numeric set, `validateField` yields no
numeric-type error when the value is empty or matches `/^-?\d+$/`, and
exactly one numeric-type error for every other non-empty value (decimals,
scientific notation and non-digit strings all fall in the second bucket). -/
theorem claim_C8_numeric_rule (field : String) (hf : field ∈ NUMERIC_FIELDS)
    (value : String) (config : Config) :
    (validateField field value config).countP (isNumericErrorFor field) =
      if value = "" ∨ isIntegerString value = true then 0 else 1 := by
  rw [validateField, getFieldRules, List.countP_map, List.countP_filter]
  have hne : ∀ s : String, s ≠ " must be a valid number" →
      ¬(field ++ s = numericMessage field) := fun s hs => by
    rw [numericMessage]
    exact append_ne_append_of_ne hs
  rw [countP_buildFieldRules_numeric field _
    (by simp [isNumericErrorFor, createRequiredRule,
      hne " is required" (by decide)])
    (by simp [isNumericErrorFor, createBooleanRule,
      hne " must be \x27true\x27 or \x27false\x27" (by decide)])
    (fun allowed => by
      have hne' : ¬(field ++ " must be one of: " ++
          String.intercalate ", " allowed = numericMessage field) := by
        rw [String.append_assoc, numericMessage]
        exact append_ne_append_of_ne (append_ne_of_take (by decide))
      simp [isNumericErrorFor, createEnumRule, hne'])
    (by simp [isNumericErrorFor, createPostgresDependencyRule,
      hne " is required when using PostgreSQL database" (by decide)])
    (by simp [isNumericErrorFor, createRedisDependencyRule,
      hne " is required when using Queue mode" (by decide)])
    hf]
  by_cases hv : value = ""
  · simp [createNumericRule, isNumericErrorFor, numericMessage, hv]
  · by_cases hint : isIntegerString value = true
    · simp [createNumericRule, isNumericErrorFor, numericMessage, hv, hint]
    · simp [createNumericRule, isNumericErrorFor, numericMessage, hv, hint]

/-- C8 witness: a scientific-notation value on a numeric field produces
exactly one numeric-type error. -/
theorem claim_C8_witness :
    (validateField "N8N_PORT" "1e5" []).countP (isNumericErrorFor "N8N_PORT") =
      if "1e5" = "" ∨ isIntegerString "1e5" = true then 0 else 1 :=
  claim_C8_numeric_rule "N8N_PORT" (by decide) "1e5" []

-- ============================================================================
-- Claims about the output generator
-- ============================================================================

/-- C3: the entry pipeline shared by all output formats never keeps a key
whose value is the empty string, and with `maskSecrets` on, a surviving key
matching the sensitive-name patterns has its value replaced by the fixed
placeholder while every other surviving key keeps its original value. -/
theorem claim_C3_filter_and_mask (config : Config) (maskSecrets : Bool) :
    (∀ k v : String, (k, v) ∈ processEntries config maskSecrets ↔
      ∃ v₀, (k, v₀) ∈ config ∧ v₀ ≠ "" ∧
        v = (if maskSecrets = true ∧ isSensitiveField k = true
             then SECRET_PLACEHOLDER else v₀)) ∧
    (∀ kv ∈ processEntries config maskSecrets, kv.2 ≠ "") := by
  have hiff : ∀ k v : String, (k, v) ∈ processEntries config maskSecrets ↔
      ∃ v₀, (k, v₀) ∈ config ∧ v₀ ≠ "" ∧
        v = (if maskSecrets = true ∧ isSensitiveField k = true
             then SECRET_PLACEHOLDER else v₀) := by
    intro k v
    cases maskSecrets with
    | false =>
      simp [processEntries, maskSensitiveValues, List.mem_filter]
    | true =>
      simp only [processEntries, maskSensitiveValues, Bool.not_true,
        Bool.false_eq_true, if_false, List.mem_map, List.mem_filter]
      constructor
      · rintro ⟨⟨k₀, v₀⟩, ⟨hmem, hne⟩, heq⟩
        have hne' : v₀ ≠ "" := by simpa using hne
        by_cases hs : isSensitiveField k₀ = true
        · rw [if_pos (by simp [hs, hne'])] at heq
          injection heq with h1 h2
          subst h1
          subst h2
          exact ⟨v₀, hmem, hne', by rw [if_pos ⟨trivial, hs⟩]⟩
        · rw [if_neg (by simp [hs])] at heq
          injection heq with h1 h2
          subst h1
          subst h2
          exact ⟨v₀, hmem, hne', by rw [if_neg (by simp [hs])]⟩
      · rintro ⟨v₀, hmem, hne', rfl⟩
        refine ⟨(k, v₀), ⟨hmem, by simp [hne']⟩, ?_⟩
        by_cases hs : isSensitiveField k = true
        · rw [if_pos (by simp [hs, hne']), if_pos ⟨trivial, hs⟩]
        · rw [if_neg (by simp [hs]), if_neg (by simp [hs])]
  refine ⟨hiff, fun kv hkv => ?_⟩
  obtain ⟨k, v⟩ := kv
  obtain ⟨v₀, -, hne, rfl⟩ := (hiff k v).mp hkv
  split_ifs
  · simp [SECRET_PLACEHOLDER]
  · exact hne

/-- C3 witness: a sensitive key is masked, a plain key keeps its value, and
an empty value is dropped, at a concrete configuration. -/
theorem claim_C3_witness :
    ("DB_POSTGRESDB_PASSWORD", "********") ∈
      processEntries
        [("DB_POSTGRESDB_PASSWORD", "hunter2"), ("N8N_HOST", "x"),
         ("EMPTY", "")] true :=
  ((claim_C3_filter_and_mask
      [("DB_POSTGRESDB_PASSWORD", "hunter2"), ("N8N_HOST", "x"), ("EMPTY", "")]
      true).1 "DB_POSTGRESDB_PASSWORD" "********").mpr
    ⟨"hunter2", by decide, by decide, by decide⟩

theorem append_ne_of_take_ne {p x t : String} {n : Nat}
    (hn : n ≤ p.data.length) (h : p.data.take n ≠ t.data.take n) :
    p ++ x ≠ t := by
  intro he
  apply h
  rw [← he, String.data_append, List.take_append_of_le_length hn]

/-- The dynamically built lines of the docker-compose renderer can never
coincide with a service-block or volume marker line: such a marker starts
with two spaces and a letter, while each dynamic line carries a fixed prefix
that differs within its first three characters. -/
theorem compose_dynamic_line_ne (t : String)
    (h1 : t.data.take 1 ≠ ['#']) (h2 : t.data.take 1 ≠ ['v'])
    (h3 : t.data.take 3 ≠ [' ', ' ', ' ']) :
    (∀ x : String,
      ¬(t = "# Generated by n8n Configuration Wizard v" ++ x) ∧
      ¬("# Generated by n8n Configuration Wizard v" ++ x = t) ∧
      ¬(t = "# Timestamp: " ++ x) ∧ ¬("# Timestamp: " ++ x = t) ∧
      ¬(t = "version: \x27" ++ x ++ "\x27") ∧
      ¬("version: \x27" ++ x ++ "\x27" = t) ∧
      ¬(t = "      - \"" ++ x ++ ":5678\"") ∧
      ¬("      - \"" ++ x ++ ":5678\"" = t) ∧
      ¬(t = "      - POSTGRES_USER=" ++ x) ∧
      ¬("      - POSTGRES_USER=" ++ x = t) ∧
      ¬(t = "      - POSTGRES_PASSWORD=" ++ x) ∧
      ¬("      - POSTGRES_PASSWORD=" ++ x = t) ∧
      ¬(t = "      - POSTGRES_DB=" ++ x) ∧
      ¬("      - POSTGRES_DB=" ++ x = t)) ∧
    (∀ a b : String,
      ¬("      - " ++ a ++ "=" ++ b = t) ∧
      ¬(t = "      - " ++ a ++ "=" ++ b)) := by
  constructor
  · intro x
    have hgen : "# Generated by n8n Configuration Wizard v" ++ x ≠ t :=
      append_ne_of_take_ne (n := 1) (by decide) (fun hc => h1 (hc ▸ by decide))
    have hts : "# Timestamp: " ++ x ≠ t :=
      append_ne_of_take_ne (n := 1) (by decide) (fun hc => h1 (hc ▸ by decide))
    have hver : "version: \x27" ++ x ++ "\x27" ≠ t := by
      rw [String.append_assoc]
      exact append_ne_of_take_ne (n := 1) (by decide)
        (fun hc => h2 (hc ▸ by decide))
    have hport : "      - \"" ++ x ++ ":5678\"" ≠ t := by
      rw [String.append_assoc]
      exact append_ne_of_take_ne (n := 3) (by decide)
        (fun hc => h3 (hc ▸ by decide))
    have hpu : "      - POSTGRES_USER=" ++ x ≠ t :=
      append_ne_of_take_ne (n := 3) (by decide) (fun hc => h3 (hc ▸ by decide))
    have hpp : "      - POSTGRES_PASSWORD=" ++ x ≠ t :=
      append_ne_of_take_ne (n := 3) (by decide) (fun hc => h3 (hc ▸ by decide))
    have hpd : "      - POSTGRES_DB=" ++ x ≠ t :=
      append_ne_of_take_ne (n := 3) (by decide) (fun hc => h3 (hc ▸ by decide))
    exact ⟨hgen.symm, hgen, hts.symm, hts, hver.symm, hver, hport.symm, hport,
      hpu.symm, hpu, hpp.symm, hpp, hpd.symm, hpd⟩
  · intro a b
    have henv : "      - " ++ a ++ "=" ++ b ≠ t := by
      rw [String.append_assoc, String.append_assoc]
      exact append_ne_of_take_ne (n := 3) (by decide)
        (fun hc => h3 (hc ▸ by decide))
    exact ⟨henv, henv.symm⟩

/-- C4: the docker-compose render contains the postgres service block
(marker line `  postgres:`) and declares the `postgres_data:` volume exactly
when `DB_TYPE` is `"postgresdb"`, and contains the redis queue service block
(marker line `  redis:`) and declares the `redis_data:` volume exactly when
`EXECUTIONS_MODE` is `"queue"`. -/
theorem claim_C4_compose_blocks (config : Config)
    (entries : List (String × String)) (options : GeneratorOptions)
    (now : String) :
    ("  postgres:" ∈ generateDockerComposeLines config entries options now ↔
      getVal config "DB_TYPE" = some "postgresdb") ∧
    ("  redis:" ∈ generateDockerComposeLines config entries options now ↔
      getVal config "EXECUTIONS_MODE" = some "queue") ∧
    ("  postgres_data:" ∈ generateDockerComposeLines config entries options now ↔
      getVal config "DB_TYPE" = some "postgresdb") ∧
    ("  redis_data:" ∈ generateDockerComposeLines config entries options now ↔
      getVal config "EXECUTIONS_MODE" = some "queue") := by
  obtain ⟨HP, HPe⟩ :=
    compose_dynamic_line_ne "  postgres:" (by decide) (by decide) (by decide)
  obtain ⟨HR, HRe⟩ :=
    compose_dynamic_line_ne "  redis:" (by decide) (by decide) (by decide)
  obtain ⟨HPD, HPDe⟩ :=
    compose_dynamic_line_ne "  postgres_data:" (by decide) (by decide)
      (by decide)
  obtain ⟨HRD, HRDe⟩ :=
    compose_dynamic_line_ne "  redis_data:" (by decide) (by decide) (by decide)
  refine ⟨⟨?_, ?_⟩, ⟨?_, ?_⟩, ⟨?_, ?_⟩, ⟨?_, ?_⟩⟩
  · intro h
    by_contra hdb
    by_cases hq : getVal config "EXECUTIONS_MODE" = some "queue" <;>
    by_cases hic : options.includeComments.getD false = true <;>
    by_cases hemp : entries.isEmpty = true <;>
    simp [generateDockerComposeLines, generateHeaderLines, hdb, hq, hic, hemp,
      HP, HPe] at h
  · intro h
    simp [generateDockerComposeLines, h]
  · intro h
    by_contra hq
    by_cases hdb : getVal config "DB_TYPE" = some "postgresdb" <;>
    by_cases hic : options.includeComments.getD false = true <;>
    by_cases hemp : entries.isEmpty = true <;>
    simp [generateDockerComposeLines, generateHeaderLines, hdb, hq, hic, hemp,
      HR, HRe] at h
  · intro h
    simp [generateDockerComposeLines, h]
  · intro h
    by_contra hdb
    by_cases hq : getVal config "EXECUTIONS_MODE" = some "queue" <;>
    by_cases hic : options.includeComments.getD false = true <;>
    by_cases hemp : entries.isEmpty = true <;>
    simp [generateDockerComposeLines, generateHeaderLines, hdb, hq, hic, hemp,
      HPD, HPDe] at h
  · intro h
    simp [generateDockerComposeLines, h]
  · intro h
    by_contra hq
    by_cases hdb : getVal config "DB_TYPE" = some "postgresdb" <;>
    by_cases hic : options.includeComments.getD false = true <;>
    by_cases hemp : entries.isEmpty = true <;>
    simp [generateDockerComposeLines, generateHeaderLines, hdb, hq, hic, hemp,
      HRD, HRDe] at h
  · intro h
    simp [generateDockerComposeLines, h]

/-- C4 witness: the spec scenario `{EXECUTIONS_MODE:"queue"}` with `DB_TYPE`
unset renders a queue service block and no database service block. -/
theorem claim_C4_witness :
    "  redis:" ∈ generateDockerComposeLines [("EXECUTIONS_MODE", "queue")]
      (processEntries [("EXECUTIONS_MODE", "queue")] false)
      { format := "docker-compose" } "2024-01-01T00:00:00.000Z" ∧
    "  postgres:" ∉ generateDockerComposeLines [("EXECUTIONS_MODE", "queue")]
      (processEntries [("EXECUTIONS_MODE", "queue")] false)
      { format := "docker-compose" } "2024-01-01T00:00:00.000Z" :=
  ⟨((claim_C4_compose_blocks [("EXECUTIONS_MODE", "queue")]
      (processEntries [("EXECUTIONS_MODE", "queue")] false)
      { format := "docker-compose" } "2024-01-01T00:00:00.000Z").2.1).mpr
    (by decide),
   fun h =>
    absurd (((claim_C4_compose_blocks [("EXECUTIONS_MODE", "queue")]
        (processEntries [("EXECUTIONS_MODE", "queue")] false)
        { format := "docker-compose" } "2024-01-01T00:00:00.000Z").1).mp h)
      (by decide)⟩

/-- C10: calling `generateOutput` with a bare format string is the same as
calling it with an options object holding only that format (every other
option at its default), and any format outside the four recognized ones
yields the empty string rather than an exception. -/
theorem claim_C10_generateOutput_overload (config : Config) (format : String)
    (now : String) :
    generateOutput config (Sum.inl format) now =
      generateOutput config (Sum.inr { format := format }) now ∧
    (format ∉ ["env", "docker-compose", "docker-run", "kubernetes"] →
      generateOutput config (Sum.inl format) now = "") := by
  refine ⟨rfl, fun hf => ?_⟩
  have h1 : format ≠ "env" := fun h => hf (by simp [h])
  have h2 : format ≠ "docker-compose" := fun h => hf (by simp [h])
  have h3 : format ≠ "docker-run" := fun h => hf (by simp [h])
  have h4 : format ≠ "kubernetes" := fun h => hf (by simp [h])
  simp [generateOutput, h1, h2, h3, h4]

/-- C10 witness: an unrecognized format produces the empty string. -/
theorem claim_C10_witness :
    generateOutput [("A", "b")] (Sum.inl "yaml") "TS" = "" :=
  (claim_C10_generateOutput_overload [("A", "b")] "yaml" "TS").2 (by decide)

end N8nWizard
